import Mathlib

/-!
Verification of the orchestration layer of `extract_pdf.py` (repository
`y3nk0/diavgeia`), a batch PDF-to-Markdown converter.

Python text (`str`) is modelled as a list of Unicode code points
(`List Nat`): unlike Lean's `Char`, a Python string may carry lone
surrogate code points, which several of the functions below exist to
handle.  External collaborators (PyMuPDF, pymupdf4llm, camelot,
pdfplumber) are modelled as environment records whose fields describe
the outcome of each library call; `Except Exc` models a Python call
that may raise.  All definitions are translated from the source file;
line references point into `src/code/extract_pdf.py`.
-/

/-- A Python exception as observed by the handlers in the source: its
type name (`type(e).__name__`), its string form (`str(e)`), and the
stack trace produced by `traceback.format_exc()`. -/
structure Exc where
  typeName : String
  str : String
  trace : String

/-! ## Text normalizer (lines 21-26, 46-48, 93-95) -/

/-- The ASCII fragment of the regex class `\w` (letters, digits,
underscore) used by both `clean_hyphenation` definitions.  Python's
`re` extends `\w` to all Unicode alphanumerics; the properties proved
below do not depend on that extension (they only need that `\w`
matches neither `-` (45) nor the newline (10)). -/
def wordChar (c : Nat) : Bool :=
  (48 ≤ c && c ≤ 57) || (65 ≤ c && c ≤ 90) || (97 ≤ c && c ≤ 122) || c == 95

/-- `re.sub(r'(\w)-\n(\w)', r'\1\2', text)` (lines 23 and 48): scan left
to right; where a word char, `-` (45), newline (10), word char occur,
emit the two word chars and resume scanning after the consumed match
(Python resumes at the end of the match, it does not rescan the emitted
replacement); otherwise advance one character. -/
def subHyphen : List Nat → List Nat
  | a :: b :: c :: d :: rest =>
    if b == 45 && c == 10 && wordChar a && wordChar d then
      a :: d :: subHyphen rest
    else
      a :: subHyphen (b :: c :: d :: rest)
  | a :: rest => a :: subHyphen rest
  | [] => []

/-- `true` iff the text still contains a match of `(\w)-\n(\w)`,
checked at every position exactly as `subHyphen` scans. -/
def hasSite : List Nat → Bool
  | a :: b :: c :: d :: rest =>
    (b == 45 && c == 10 && wordChar a && wordChar d) || hasSite (b :: c :: d :: rest)
  | _ :: rest => hasSite rest
  | [] => false

/-- `re.sub(r'\n{3,}', '\n\n', text)` (line 25): a greedy leftmost match
consumes a maximal run of three or more newlines (10) and is replaced
by exactly two; scanning resumes after the consumed run. -/
def collapseNewlines : List Nat → List Nat
  | a :: b :: c :: rest =>
    if a == 10 && b == 10 && c == 10 then
      10 :: 10 :: collapseNewlines (rest.dropWhile (fun x => x == 10))
    else
      a :: collapseNewlines (b :: c :: rest)
  | a :: rest => a :: collapseNewlines rest
  | [] => []
termination_by l => l.length
decreasing_by
  · have hle : ∀ m : List Nat, (m.dropWhile (fun x => x == 10)).length ≤ m.length := by
      intro m
      induction m with
      | nil => simp [List.dropWhile]
      | cons x xs ih =>
        simp only [List.dropWhile_cons]
        split
        · exact Nat.le_trans ih (Nat.le_succ _)
        · simp
    have := hle rest
    simp only [List.length_cons]
    omega
  · simp only [List.length_cons]
    omega
  · simp only [List.length_cons]
    omega

/-- `true` iff the text contains three consecutive newlines, i.e. a
match of `\n{3,}`. -/
def hasTriple : List Nat → Bool
  | a :: b :: c :: rest => (a == 10 && b == 10 && c == 10) || hasTriple (b :: c :: rest)
  | _ => false

/-- The first definition of `clean_hyphenation` (lines 21-26): hyphen
joining followed by blank-line collapsing.  In Python it is shadowed by
the redefinition at lines 46-48 and is not the `clean_hyphenation`
the rest of the module sees. -/
def clean_hyphenation_shadowed (text : List Nat) : List Nat :=
  collapseNewlines (subHyphen text)

/-- The effective `clean_hyphenation` (lines 46-48, the later
definition, which in Python shadows the earlier one): hyphen joining
only. -/
def clean_hyphenation (text : List Nat) : List Nat :=
  subHyphen text

/-- Code point in the lone-surrogate range 0xD800-0xDFFF. -/
def isSurrogate (c : Nat) : Bool :=
  0xD800 ≤ c && c ≤ 0xDFFF

/-- `remove_surrogates` (lines 93-95):
`re.sub(r'[\ud800-\udfff]', '', text)` deletes every code point in the
lone-surrogate range and keeps everything else. -/
def remove_surrogates (text : List Nat) : List Nat :=
  text.filter (fun c => !(isSurrogate c))

/-! ## Safe writer (lines 97-105) -/

/-- Which code points the UTF-8 encoder still refuses: for the code
points of a Python `str` (all below 0x110000) these are exactly the
lone surrogates, the same range `remove_surrogates` deletes. -/
def utf8_rejects (c : Nat) : Bool :=
  isSurrogate c

/-- Lower-case hex digit of a value below 16, as a code point. -/
def hexDigitCp (n : Nat) : Nat :=
  if n < 10 then 48 + n else 87 + n

/-- The `errors="backslashreplace"` substitution for one rejected code
point: the escape `\uXXXX` (92, 117, then four hex digits). -/
def backslash_escape (c : Nat) : List Nat :=
  [92, 117, hexDigitCp (c / 4096 % 16), hexDigitCp (c / 256 % 16),
   hexDigitCp (c / 16 % 16), hexDigitCp (c % 16)]

/-- The text that `safe_write_utf8` (lines 97-105) puts into the output
file: first `remove_surrogates`, then each remaining code point is
encoded as itself, with the backslash-escape substituted for any code
point the encoder still rejects. -/
def safe_write_utf8_content (text : List Nat) : List Nat :=
  (remove_surrogates text).foldr
    (fun c acc => (if utf8_rejects c then backslash_escape c else [c]) ++ acc) []

/-! ## Extraction strategy chain (lines 107-125) -/

/-- One page of an opened document, described by the outcome of its two
extraction calls: `page.get_text("markdown")` and
`page.get_text("text")`. -/
structure Page where
  md : Except Exc (List Nat)
  txt : Except Exc (List Nat)

/-- The per-page body of `safe_plain_markdown` (lines 111-115): try the
markdown-flavored extraction, and on exception fall back to plain text
for that page only (whose own failure would propagate). -/
def pageText (p : Page) : Except Exc (List Nat) :=
  match p.md with
  | .ok s => .ok s
  | .error _ => p.txt

/-- The horizontal-rule separator `"\n\n---\n\n"` of line 116. -/
def hrSep : List Nat := [10, 10, 45, 45, 45, 10, 10]

/-- `"\n\n---\n\n".join(parts)` (line 116). -/
def joinParts : List (List Nat) → List Nat
  | [] => []
  | [p] => p
  | p :: ps => p ++ hrSep ++ joinParts ps

/-- The document-level external collaborators used by the extraction
chain: `fitz.open(pdf_path)` (which may raise, e.g. on an unopenable
file) and `pymupdf4llm.to_markdown(doc)` (the primary layout-aware
converter, which may raise e.g. on JPX images). -/
structure PdfEnv where
  openDoc : Except Exc (List Page)
  to_markdown : List Page → Except Exc (List Nat)

/-- `safe_plain_markdown` (lines 107-116): open the document, extract
each page via `pageText`, join with the horizontal-rule separator.  An
exception from `fitz.open` or from a page's plain-text extraction
propagates. -/
def safe_plain_markdown (env : PdfEnv) : Except Exc (List Nat) :=
  match env.openDoc with
  | .error e => .error e
  | .ok doc =>
    match doc.mapM pageText with
    | .error e => .error e
    | .ok parts => .ok (joinParts parts)

/-- `pdf_to_markdown_with_pymupdf4llm` (lines 118-125): try the primary
converter on the opened document; on any exception fall back to
`safe_plain_markdown` (which re-opens the file itself). -/
def pdf_to_markdown_with_pymupdf4llm (env : PdfEnv) : Except Exc (List Nat) :=
  match (match env.openDoc with
         | .error e => Except.error e
         | .ok doc => env.to_markdown doc) with
  | .ok md => .ok md
  | .error _ => safe_plain_markdown env

/-! ## Per-file task runner (lines 127-145) -/

/-- One work item `(pdf_name, in_dir, out_dir, skip)`; the directory
strings only feed the path computation and are omitted, `skip` is the
skip-existing flag. -/
structure PdfTask where
  pdf_name : String
  skip : Bool

/-- The tuple `(pdf_name, success, msg)` returned by `process_file`. -/
structure TaskResult where
  name : String
  success : Bool
  msg : String

/-- The effectful steps `process_file` can take, as observed outcomes:
`out_fp.exists()`, the whole extraction chain for this file, and
whether the file write itself raises (an I/O error; encoding errors
cannot occur, see `safe_write_utf8_content`). -/
structure FileEnv where
  outExists : Except Exc Bool
  extract : Except Exc (List Nat)
  writeErr : Option Exc

/-- The `try:` body of `process_file` (lines 132-138).  The second
component of the payload is the text written to the output file
(`none` when nothing was written).  `skip and out_fp.exists()`
short-circuits: the existence check runs only when `skip` is set. -/
def process_file_body (env : FileEnv) (t : PdfTask) :
    Except Exc (TaskResult × Option (List Nat)) :=
  match (if t.skip then env.outExists else Except.ok false) with
  | .error e => .error e
  | .ok true => .ok (⟨t.pdf_name, true, "skipped"⟩, none)
  | .ok false =>
    match env.extract with
    | .error e => .error e
    | .ok md =>
      match env.writeErr with
      | some e => .error e
      | none => .ok (⟨t.pdf_name, true, ""⟩, some (safe_write_utf8_content md))

/-- `process_file` (lines 127-145): run the body; any exception is
caught and turned into a failure result whose message is
`f"{type(e).__name__}: {e}\n{traceback.format_exc()}"` (line 144). -/
def process_file (env : FileEnv) (t : PdfTask) : TaskResult × Option (List Nat) :=
  match process_file_body env t with
  | .ok r => r
  | .error e =>
    (⟨t.pdf_name, false, e.typeName ++ ": " ++ e.str ++ "\n" ++ e.trace⟩, none)

/-! ## Table extractor (lines 50-78) -/

/-- One camelot table object: its 1-based page number `t.page` and its
rendering `t.df.to_markdown(index=False)`. -/
structure CamTable where
  page : Nat
  md : String

/-- A raw pdfplumber table: rows of cells, as returned by
`page.extract_tables()`. -/
abbrev RawTable := List (List String)

/-- `tables_per_page`: the mapping from 1-based page number to the list
of rendered tables, in insertion order (a Python dict). -/
abbrev PageTables := List (Nat × List String)

/-- `page in tables_per_page`. -/
def hasPage (m : PageTables) (p : Nat) : Bool :=
  m.any (fun kv => kv.1 == p)

/-- `tables_per_page.setdefault(page, []).append(md)` (line 60): append
to the existing entry, or insert a new singleton entry. -/
def addTable (m : PageTables) (p : Nat) (md : String) : PageTables :=
  if hasPage m p then
    m.map (fun kv => if kv.1 == p then (kv.1, kv.2 ++ [md]) else kv)
  else
    m ++ [(p, [md])]

/-- The `for t in cam:` loop of lines 57-60. -/
def camelotFold (ts : List CamTable) (m : PageTables) : PageTables :=
  ts.foldl (fun acc t => addTable acc t.page t.md) m

/-- The external collaborators of `extract_tables_markdown`: the two
camelot calls (lattice / stream flavor), the pdfplumber page list with
each page's `extract_tables()` result, and the DataFrame-to-Markdown
rendering of a raw table (line 74-75), treated as opaque. -/
structure TablesEnv where
  lattice : Except Exc (List CamTable)
  stream : Except Exc (List CamTable)
  plumberPages : List (List RawTable)
  render : RawTable → String

/-- The camelot `try:` block (lines 53-62): read with the lattice
flavor; if that found zero tables, read again with the stream flavor;
fold the resulting tables into the mapping.  Any exception anywhere in
the block (including from the stream call) is swallowed, leaving the
mapping as built so far - which is empty, since the fold runs only
after both reads. -/
def camelotPhase (env : TablesEnv) : PageTables :=
  match env.lattice with
  | .error _ => []
  | .ok cam0 =>
    match (if cam0.length == 0 then env.stream else Except.ok cam0) with
    | .error _ => []
    | .ok cam => camelotFold cam []

/-- The pdfplumber fallback loop (lines 65-77): enumerate pages from 1;
skip a page already in the mapping; skip a page with no raw tables;
otherwise render every raw table and insert the list under the page's
key. -/
def plumberLoop (render : RawTable → String) :
    List (List RawTable) → Nat → PageTables → PageTables
  | [], _, m => m
  | tbls :: rest, i, m =>
    if hasPage m i then
      plumberLoop render rest (i + 1) m
    else if tbls.isEmpty then
      plumberLoop render rest (i + 1) m
    else
      let md_list := tbls.map render
      if md_list.isEmpty then
        plumberLoop render rest (i + 1) m
      else
        plumberLoop render rest (i + 1) (m ++ [(i, md_list)])

/-- `extract_tables_markdown` (lines 50-78): camelot phase, then the
pdfplumber fallback over all pages. -/
def extract_tables_markdown (env : TablesEnv) : PageTables :=
  plumberLoop env.render env.plumberPages 1 (camelotPhase env)

/-- Modelled from the spec/claim wording, for comparison with the code:
a tier-1 (lattice) failure "degrades to the next tier: tier 2
(stream-based detection) is still attempted", i.e. a lattice exception
is treated like zero lattice tables. -/
def camelotPhase_claim (env : TablesEnv) : PageTables :=
  let viaStream : PageTables :=
    match env.stream with
    | .error _ => []
    | .ok cam => camelotFold cam []
  match env.lattice with
  | .error _ => viaStream
  | .ok cam0 => if cam0.length == 0 then viaStream else camelotFold cam0 []

/-- The claim's reading of the whole extractor (tier-1 failure still
attempts tier 2 before the tier-3 scanner). -/
def extract_tables_markdown_claim (env : TablesEnv) : PageTables :=
  plumberLoop env.render env.plumberPages 1 (camelotPhase_claim env)

/-! ## Batch orchestrator worker count (lines 147-168) -/

/-- The worker count `main` actually hands to `Pool(processes=...)`:
the configurable computation
`n_workers or min(cpu_count(), len(all_pdfs))` is commented out
(line 157) and the count is assigned the constant 10 (line 158),
whatever `n_workers` was supplied. -/
def pool_workers (n_workers : Option Nat) : Nat := 10

/-! ## Concrete environments used by witnesses and counterexamples -/

/-- A sample exception. -/
def excA : Exc := ⟨"ValueError", "bad xref", "Traceback (most recent call last): A"⟩

/-- A sample exception. -/
def excB : Exc := ⟨"RuntimeError", "jpx codec", "Traceback (most recent call last): B"⟩

/-- Environment where the extraction chain raises `excA`. -/
def envExtractFails : FileEnv := ⟨Except.ok false, Except.error excA, none⟩

/-- A task with the skip-existing flag cleared. -/
def taskNoSkip : PdfTask := ⟨"a.pdf", false⟩

/-- A task with the skip-existing flag set. -/
def taskSkip : PdfTask := ⟨"b.pdf", true⟩

/-- Environment of a zero-page document that opens fine while the
primary converter raises. -/
def envEmptyDoc : PdfEnv := ⟨Except.ok [], fun _ => Except.error excB⟩

/-- A page whose markdown-flavored extraction succeeds. -/
def pageMdOk : Page := ⟨Except.ok [72], Except.ok [73]⟩

/-- A page whose markdown-flavored extraction raises but whose plain
text extraction succeeds. -/
def pageMdFails : Page := ⟨Except.error excB, Except.ok [87]⟩

/-- Environment of a two-page document that opens fine while the
primary converter raises. -/
def envTwoPages : PdfEnv := ⟨Except.ok [pageMdOk, pageMdFails], fun _ => Except.error excB⟩

/-- Environment where successful extraction yields text containing a
lone surrogate. -/
def envExtractSurrogate : FileEnv := ⟨Except.ok false, Except.ok [97, 0xD800, 98], none⟩

/-- Tables environment: lattice raises, stream would find a table on
page 1, pdfplumber sees one page with no tables. -/
def envLatticeFails : TablesEnv :=
  ⟨Except.error excA, Except.ok [⟨1, "T"⟩], [[]], fun _ => "R"⟩

/-- Tables environment: lattice finds a table on page 1, pdfplumber
finds a raw table on page 2. -/
def envTablesBoth : TablesEnv :=
  ⟨Except.ok [⟨1, "TA"⟩], Except.ok [], [[], [[["x"]]]], fun _ => "TB"⟩

/-! ## Helper lemmas about the normalizers -/

/-- `dropWhile (== 10)` never leaves a leading newline. -/
theorem dropNl_head (l : List Nat) :
    ∀ y, (l.dropWhile (fun x => x == 10)).head? = some y → y ≠ 10 := by
  induction l with
  | nil => intro y hy; simp [List.dropWhile] at hy
  | cons a rest ih =>
    intro y hy
    rw [List.dropWhile_cons] at hy
    by_cases ha : a = 10
    · rw [if_pos (by simp [ha])] at hy
      exact ih y hy
    · rw [if_neg (by simp [ha])] at hy
      simp at hy
      omega

/-- Blank-line collapsing never changes the first character. -/
theorem collapse_head (l : List Nat) : (collapseNewlines l).head? = l.head? := by
  induction l using collapseNewlines.induct with
  | case1 a b c rest h ih =>
    rw [collapseNewlines, if_pos h]
    simp only [Bool.and_eq_true, beq_iff_eq] at h
    simp [h.1.1]
  | case2 a b c rest h ih =>
    rw [collapseNewlines, if_neg h]
    simp
  | case3 a rest hx ih =>
    rcases rest with _ | ⟨b, _ | ⟨c, r⟩⟩
    · simp [collapseNewlines]
    · simp [collapseNewlines]
    · exact absurd rfl (hx b c r)
  | case4 =>
    rw [collapseNewlines]

/-- An output of blank-line collapsing that begins with two newlines
can only come from an input that begins with two newlines. -/
theorem collapse_two_start (l : List Nat) :
    ∀ r, collapseNewlines l = 10 :: 10 :: r →
      l.head? = some 10 ∧ l.tail.head? = some 10 := by
  induction l using collapseNewlines.induct with
  | case1 a b c rest h ih =>
    intro r hr
    simp only [Bool.and_eq_true, beq_iff_eq] at h
    obtain ⟨⟨ha, hb⟩, hc⟩ := h
    simp [ha, hb]
  | case2 a b c rest h ih =>
    intro r hr
    rw [collapseNewlines, if_neg h] at hr
    have ha : a = 10 := by
      have := congrArg List.head? hr
      simp at this
      exact this
    have hb : (b :: c :: rest).head? = some 10 := by
      have h2 := congrArg List.tail hr
      simp at h2
      rw [← collapse_head, h2]
      simp
    simp at hb
    simp [ha, hb]
  | case3 a rest hx ih =>
    intro r hr
    rcases rest with _ | ⟨b, _ | ⟨c, rr⟩⟩
    · simp [collapseNewlines] at hr
    · simp [collapseNewlines] at hr
      simp [hr.1, hr.2.1]
    · exact absurd rfl (hx b c rr)
  | case4 =>
    intro r hr
    rw [collapseNewlines] at hr
    exact absurd hr (by simp)

/-- After blank-line collapsing no three consecutive newlines remain. -/
theorem collapse_no_triple (l : List Nat) :
    hasTriple (collapseNewlines l) = false := by
  induction l using collapseNewlines.induct with
  | case1 a b c rest h ih =>
    rw [collapseNewlines, if_pos h]
    rcases hY : collapseNewlines (rest.dropWhile (fun x => x == 10)) with _ | ⟨y, ys⟩
    · simp [hasTriple]
    · have hy : y ≠ 10 := by
        apply dropNl_head rest y
        rw [← collapse_head, hY]
        simp
      rw [hY] at ih
      rcases ys with _ | ⟨z, zs⟩
      · simp [hasTriple, hy]
      · rw [hasTriple]
        rw [hasTriple]
        simp only [Bool.or_eq_false_iff]
        refine ⟨by simp [hy], by simp [hy], ?_⟩
        exact ih
  | case2 a b c rest h ih =>
    rw [collapseNewlines, if_neg h]
    rcases hY : collapseNewlines (b :: c :: rest) with _ | ⟨y, _ | ⟨z, ws⟩⟩
    · simp [hasTriple]
    · simp [hasTriple]
    · rw [hY] at ih
      rw [hasTriple]
      simp only [Bool.or_eq_false_iff]
      refine ⟨?_, ih⟩
      by_contra hcon
      simp only [Bool.and_eq_true, beq_iff_eq, Bool.not_eq_false] at hcon
      obtain ⟨⟨ha, hy10⟩, hz10⟩ := hcon
      rw [hy10, hz10] at hY
      have hbc := collapse_two_start (b :: c :: rest) ws hY
      simp at hbc
      apply h
      simp [ha, hbc.1, hbc.2]
  | case3 a rest hx ih =>
    rcases rest with _ | ⟨b, _ | ⟨c, r⟩⟩
    · simp [collapseNewlines, hasTriple]
    · simp [collapseNewlines, hasTriple]
    · exact absurd rfl (hx b c r)
  | case4 =>
    simp [collapseNewlines, hasTriple]

/-- Hyphen joining is the identity on a text with no remaining match. -/
theorem subHyphen_id_of_no_site (l : List Nat) :
    hasSite l = false → subHyphen l = l := by
  induction l using subHyphen.induct with
  | case1 a b c d rest h ih =>
    intro hs
    rw [hasSite] at hs
    simp only [Bool.or_eq_false_iff] at hs
    exact absurd h (by simp [hs.1])
  | case2 a b c d rest h ih =>
    intro hs
    rw [hasSite] at hs
    simp only [Bool.or_eq_false_iff] at hs
    rw [subHyphen, if_neg h, ih hs.2]
  | case3 a rest hx ih =>
    intro hs
    rcases rest with _ | ⟨b, _ | ⟨c, _ | ⟨d, r⟩⟩⟩
    · simp [subHyphen]
    · simp [subHyphen]
    · simp [subHyphen]
    · exact absurd rfl (hx b c d r)
  | case4 =>
    intro _
    rfl

/-- The backslash-escape branch never fires after surrogate removal, so
the written text is exactly the surrogate-free text. -/
theorem safe_write_content_eq (text : List Nat) :
    safe_write_utf8_content text = remove_surrogates text := by
  rw [safe_write_utf8_content]
  have hfree : ∀ c ∈ remove_surrogates text, utf8_rejects c = false := by
    intro c hc
    rw [remove_surrogates] at hc
    have := (List.mem_filter.mp hc).2
    rw [utf8_rejects]
    simpa using this
  revert hfree
  generalize remove_surrogates text = l
  intro hfree
  induction l with
  | nil => rfl
  | cons a rest ih =>
    rw [List.foldr_cons]
    have ha := hfree a (by simp)
    rw [ha]
    simp only [Bool.false_eq_true, if_false, List.singleton_append]
    rw [ih (fun c hc => hfree c (by simp [hc]))]

/-! ## Helper lemmas about the table extractor -/

/-- `addTable` keeps every value list non-empty. -/
theorem addTable_values (m : PageTables) (p : Nat) (md : String)
    (h : ∀ kv ∈ m, kv.2 ≠ []) : ∀ kv ∈ addTable m p md, kv.2 ≠ [] := by
  intro kv hkv
  rw [addTable] at hkv
  split at hkv
  · obtain ⟨kv0, hkv0, hmap⟩ := List.mem_map.mp hkv
    split at hmap
    · rw [← hmap]
      simp
    · rw [← hmap]
      exact h kv0 hkv0
  · rcases List.mem_append.mp hkv with hm | hnew
    · exact h kv hm
    · simp at hnew
      rw [hnew]
      simp

/-- The camelot loop keeps every value list non-empty. -/
theorem camelotFold_values (ts : List CamTable) :
    ∀ m, (∀ kv ∈ m, kv.2 ≠ []) → ∀ kv ∈ camelotFold ts m, kv.2 ≠ [] := by
  induction ts with
  | nil =>
    intro m h
    simpa [camelotFold] using h
  | cons t ts ih =>
    intro m h
    rw [camelotFold, List.foldl_cons]
    exact ih _ (addTable_values m t.page t.md h)

/-- Every entry the camelot phase produces has a non-empty value. -/
theorem camelotPhase_values (env : TablesEnv) :
    ∀ kv ∈ camelotPhase env, kv.2 ≠ [] := by
  rw [camelotPhase]
  split
  · simp
  · split
    · simp
    · exact camelotFold_values _ [] (by simp)

/-- `hasPage` over an appended singleton. -/
theorem hasPage_append_one (m : PageTables) (i p : Nat) (v : List String) :
    hasPage (m ++ [(i, v)]) p = (hasPage m p || (i == p)) := by
  rw [hasPage, hasPage, List.any_append]
  simp

/-- The pdfplumber loop preserves existing entries verbatim, and any
entry it adds has a fresh page key and a non-empty value list. -/
theorem plumberLoop_invariant (render : RawTable → String) :
    ∀ (pages : List (List RawTable)) (i : Nat) (m : PageTables),
      (∀ kv ∈ m, kv ∈ plumberLoop render pages i m) ∧
      (∀ kv ∈ plumberLoop render pages i m,
        kv ∈ m ∨ (hasPage m kv.1 = false ∧ kv.2 ≠ [])) := by
  intro pages
  induction pages with
  | nil =>
    intro i m
    constructor
    · intro kv hkv
      rw [plumberLoop]
      exact hkv
    · intro kv hkv
      rw [plumberLoop] at hkv
      exact Or.inl hkv
  | cons tbls rest ih =>
    intro i m
    rw [plumberLoop]
    split
    · exact ih (i + 1) m
    · split
      · exact ih (i + 1) m
      · dsimp only
        split
        · exact ih (i + 1) m
        · rename_i hpg htb hml
          constructor
          · intro kv hkv
            exact (ih (i + 1) (m ++ [(i, tbls.map render)])).1 kv
              (List.mem_append.mpr (Or.inl hkv))
          · intro kv hkv
            rcases (ih (i + 1) (m ++ [(i, tbls.map render)])).2 kv hkv with hm | ⟨hfresh, hne⟩
            · rcases List.mem_append.mp hm with hold | hnew
              · exact Or.inl hold
              · right
                simp at hnew
                rw [hnew]
                constructor
                · simpa using hpg
                · simpa using hml
            · right
              rw [hasPage_append_one] at hfresh
              simp only [Bool.or_eq_false_iff] at hfresh
              exact ⟨hfresh.1, hne⟩

/-! ## Claim theorems -/

/-- C1: `process_file` never raises - its return type is total - and
when any step of its body raises an exception `e`, it returns a failure
result (success flag `false`) whose message is exactly
`type(e).__name__ ++ ": " ++ str(e) ++ "\n" ++ traceback.format_exc()`,
so the message contains the type name, the string form and the full
stack trace; nothing is propagated to the orchestrator. -/
theorem process_file_exception_captured (env : FileEnv) (t : PdfTask) (e : Exc)
    (h : process_file_body env t = Except.error e) :
    process_file env t =
      (⟨t.pdf_name, false, e.typeName ++ ": " ++ e.str ++ "\n" ++ e.trace⟩, none) := by
  rw [process_file, h]

/-- C1 witness: a task whose extraction raises `excA` yields exactly
the formatted failure result. -/
theorem process_file_exception_captured_witness :
    process_file envExtractFails taskNoSkip =
      (⟨taskNoSkip.pdf_name, false,
        excA.typeName ++ ": " ++ excA.str ++ "\n" ++ excA.trace⟩, none) :=
  process_file_exception_captured envExtractFails taskNoSkip excA rfl

/-- C2: when the skip flag is set and the output path exists, the task
returns success with message "skipped"; this holds for every extraction
outcome and every write outcome (both are quantified over, so neither
the input read nor the write can influence the result), and nothing is
written. -/
theorem process_file_skip_existing (ex : Except Exc (List Nat)) (we : Option Exc)
    (t : PdfTask) (h : t.skip = true) :
    process_file ⟨Except.ok true, ex, we⟩ t =
      (⟨t.pdf_name, true, "skipped"⟩, none) := by
  simp [process_file, process_file_body, h]

/-- C2 witness: the skip result obtains even when the extraction chain
would raise, showing the input is never read. -/
theorem process_file_skip_existing_witness :
    process_file ⟨Except.ok true, Except.error excA, none⟩ taskSkip =
      (⟨taskSkip.pdf_name, true, "skipped"⟩, none) :=
  process_file_skip_existing (Except.error excA) none taskSkip rfl

/-- C3 counterexample: a zero-page document opens fine and makes the
primary converter raise, yet the fallback chain returns the EMPTY
string - refuting the claim that the fallback always produces
non-empty output whenever the document can be opened. -/
theorem fallback_empty_doc_counterexample :
    envEmptyDoc.openDoc = Except.ok [] ∧
    envEmptyDoc.to_markdown [] = Except.error excB ∧
    pdf_to_markdown_with_pymupdf4llm envEmptyDoc = Except.ok [] :=
  ⟨rfl, rfl, rfl⟩

/-- C3 (amended): when the primary converter raises on a document that
opens, and every page's fallback extraction succeeds, the chain
returns the per-page extractions (markdown-flavored, per-page fallback
to plain text inside `pageText`) joined by the horizontal-rule marker;
the result is guaranteed non-empty only when the document has at least
two pages (a zero-page document gives the empty string). -/
theorem fallback_chain_joins_pages (env : PdfEnv) (doc : List Page)
    (parts : List (List Nat)) (e : Exc)
    (hopen : env.openDoc = Except.ok doc)
    (hprim : env.to_markdown doc = Except.error e)
    (hpages : doc.mapM pageText = Except.ok parts) :
    pdf_to_markdown_with_pymupdf4llm env = Except.ok (joinParts parts) ∧
    (2 ≤ parts.length → joinParts parts ≠ []) := by
  constructor
  · simp only [pdf_to_markdown_with_pymupdf4llm, safe_plain_markdown, hopen, hprim, hpages]
  · intro hlen
    rcases parts with _ | ⟨p, _ | ⟨q, ps⟩⟩
    · simp at hlen
    · simp at hlen
    · rw [joinParts]
      · simp [hrSep]
      · simp

/-- C3 witness: a two-page document (second page needs the per-page
plain-text fallback) yields the joined, non-empty output. -/
theorem fallback_chain_joins_pages_witness :
    pdf_to_markdown_with_pymupdf4llm envTwoPages = Except.ok (joinParts [[72], [87]]) ∧
    joinParts [[72], [87]] ≠ [] := by
  have h := fallback_chain_joins_pages envTwoPages [pageMdOk, pageMdFails]
    [[72], [87]] excB rfl rfl rfl
  exact ⟨h.1, h.2 (by decide)⟩

/-- C4 counterexample: `clean_hyphenation` is NOT idempotent.  On
`"a-\nb-\nc"` (`[97, 45, 10, 98, 45, 10, 99]`) one application joins
only the first split word - the scan resumes after the consumed match,
so the second split straddling the match boundary survives - and a
second application joins it. -/
theorem clean_hyphenation_not_idempotent :
    clean_hyphenation (clean_hyphenation [97, 45, 10, 98, 45, 10, 99]) ≠
      clean_hyphenation [97, 45, 10, 98, 45, 10, 99] := by decide

/-- C4 (amended): `clean_hyphenation` is idempotent on every text whose
image contains no remaining hyphenation site; in general (chained
splits such as `"a-\nb-\nc"`) a second application can join further. -/
theorem clean_hyphenation_idempotent_when_settled (l : List Nat)
    (h : hasSite (clean_hyphenation l) = false) :
    clean_hyphenation (clean_hyphenation l) = clean_hyphenation l :=
  subHyphen_id_of_no_site (clean_hyphenation l) h

/-- C4 witness: after joining `"a-\nb"` no site remains and a second
application changes nothing. -/
theorem clean_hyphenation_idempotent_when_settled_witness :
    hasSite (clean_hyphenation [97, 45, 10, 98]) = false ∧
    clean_hyphenation (clean_hyphenation [97, 45, 10, 98]) =
      clean_hyphenation [97, 45, 10, 98] :=
  ⟨by decide, clean_hyphenation_idempotent_when_settled [97, 45, 10, 98] (by decide)⟩

/-- C5 counterexample: the effective `clean_hyphenation` (the later,
shadowing definition of lines 46-48) performs NO blank-line collapsing:
on `"\n\n\n"` it is the identity instead of producing `"\n\n"`. -/
theorem clean_hyphenation_no_blank_collapse :
    clean_hyphenation [10, 10, 10] = [10, 10, 10] ∧
    clean_hyphenation [10, 10, 10] ≠ [10, 10] := by decide

/-- C5 (amended): blank-line collapsing is performed only by the first,
shadowed definition of `clean_hyphenation` (lines 21-26); that
definition leaves no run of three or more consecutive newlines in its
output, and collapses such a run to exactly two (e.g. the run of four
newlines inside `"a\n\n\n\nb"` becomes exactly two). -/
theorem shadowed_clean_hyphenation_collapses :
    (∀ l : List Nat, hasTriple (clean_hyphenation_shadowed l) = false) ∧
    clean_hyphenation_shadowed [97, 10, 10, 10, 10, 98] = [97, 10, 10, 98] := by
  constructor
  · intro l
    exact collapse_no_triple (subHyphen l)
  · simp [clean_hyphenation_shadowed, subHyphen, collapseNewlines, List.dropWhile]

/-- C6 counterexample: lattice raises while stream would find a table
on page 1 and the page scanner finds nothing.  The code leaves the
mapping empty - the whole camelot `try:` block is aborted, so stream is
NOT attempted - whereas the claim's reading (tier-1 failure degrades to
tier 2) would produce the stream table. -/
theorem lattice_failure_skips_stream :
    extract_tables_markdown envLatticeFails = [] ∧
    extract_tables_markdown_claim envLatticeFails = [(1, ["T"])] :=
  ⟨rfl, rfl⟩

/-- C6 (amended): a tier-1 (lattice) exception is swallowed silently,
but it aborts the camelot phase entirely: tier 2 (stream) runs only
when lattice succeeds with zero tables, and after a lattice exception
control falls directly to the tier-3 page scanner starting from an
empty mapping. -/
theorem lattice_failure_falls_to_plumber (env : TablesEnv) (e : Exc)
    (h : env.lattice = Except.error e) :
    extract_tables_markdown env = plumberLoop env.render env.plumberPages 1 [] := by
  rw [extract_tables_markdown, camelotPhase, h]

/-- C6 witness: the amended claim at the concrete environment. -/
theorem lattice_failure_falls_to_plumber_witness :
    extract_tables_markdown envLatticeFails =
      plumberLoop envLatticeFails.render envLatticeFails.plumberPages 1 [] :=
  lattice_failure_falls_to_plumber envLatticeFails excA rfl

/-- C7: in the mapping returned by `extract_tables_markdown`, every
page key maps to a non-empty list; every entry produced by the camelot
(primary) phase is present verbatim in the final mapping (never
overwritten or modified); and every entry of the final mapping either
is a camelot entry or sits under a page key the camelot phase did not
populate (the fallback only adds fresh keys). -/
theorem tables_per_page_invariant (env : TablesEnv) :
    (∀ kv ∈ extract_tables_markdown env, kv.2 ≠ []) ∧
    (∀ kv ∈ camelotPhase env, kv ∈ extract_tables_markdown env) ∧
    (∀ kv ∈ extract_tables_markdown env,
      kv ∈ camelotPhase env ∨ hasPage (camelotPhase env) kv.1 = false) := by
  have hinv := plumberLoop_invariant env.render env.plumberPages 1 (camelotPhase env)
  have hvals := camelotPhase_values env
  refine ⟨?_, ?_, ?_⟩
  · intro kv hkv
    rcases hinv.2 kv hkv with hm | ⟨_, hne⟩
    · exact hvals kv hm
    · exact hne
  · intro kv hkv
    exact hinv.1 kv hkv
  · intro kv hkv
    rcases hinv.2 kv hkv with hm | ⟨hfresh, _⟩
    · exact Or.inl hm
    · exact Or.inr hfresh

/-- C7 witness: in an environment where camelot fills page 1 and the
fallback scanner fills page 2, the camelot entry survives verbatim
with a non-empty value list. -/
theorem tables_per_page_invariant_witness :
    ((1, ["TA"]) : Nat × List String).2 ≠ [] ∧
    ((1, ["TA"]) : Nat × List String) ∈ extract_tables_markdown envTablesBoth :=
  ⟨(tables_per_page_invariant envTablesBoth).1 (1, ["TA"]) (by decide),
   (tables_per_page_invariant envTablesBoth).2.1 (1, ["TA"]) (by decide)⟩

/-- C8: `remove_surrogates` leaves no code point in the lone-surrogate
range 0xD800-0xDFFF, and is the identity on text containing none. -/
theorem remove_surrogates_spec (text : List Nat) :
    (∀ c ∈ remove_surrogates text, isSurrogate c = false) ∧
    ((∀ c ∈ text, isSurrogate c = false) → remove_surrogates text = text) := by
  constructor
  · intro c hc
    rw [remove_surrogates] at hc
    have := (List.mem_filter.mp hc).2
    simpa using this
  · intro h
    rw [remove_surrogates]
    apply List.filter_eq_self.mpr
    intro a ha
    simp [h a ha]

/-- C8 witness: the theorem applied to the surrogate-free text
`"αβ"` (`[945, 946]`). -/
theorem remove_surrogates_spec_witness :
    isSurrogate 945 = false ∧ remove_surrogates [945, 946] = [945, 946] :=
  ⟨(remove_surrogates_spec [945, 946]).1 945 (by decide),
   (remove_surrogates_spec [945, 946]).2 (by decide)⟩

/-- C9: the worker count is NOT configurable - `main` hands the pool
the constant 10 regardless of the supplied value (the configurable
computation is commented out at line 157 and overridden at line 158);
in particular supplying 8 still yields 10. -/
theorem pool_workers_ignores_argument :
    (∀ n : Option Nat, pool_workers n = 10) ∧ pool_workers (some 8) = 10 :=
  ⟨fun _ => rfl, rfl⟩

/-- C10: for every task that is not skipped and succeeds (success flag
true with empty message), the text written to the output file is
exactly `remove_surrogates` of the extraction chain's output - the
backslash-escape branch of the writer can never fire after surrogate
removal - and neither hyphenation joining nor blank-line collapsing is
applied on the way to the file: the writer leaves `"a-\nb"` and
`"a\n\n\nb"` untouched even though `clean_hyphenation` would join the
first and the shadowed normalizer would collapse the second. -/
theorem written_text_is_remove_surrogates :
    (∀ (env : FileEnv) (t : PdfTask) (md : List Nat) (w : Option (List Nat)),
        env.extract = Except.ok md →
        process_file env t = (⟨t.pdf_name, true, ""⟩, w) →
        w = some (remove_surrogates md)) ∧
    safe_write_utf8_content [97, 45, 10, 98] = [97, 45, 10, 98] ∧
    clean_hyphenation [97, 45, 10, 98] = [97, 98] ∧
    safe_write_utf8_content [97, 10, 10, 10, 98] = [97, 10, 10, 10, 98] ∧
    clean_hyphenation_shadowed [97, 10, 10, 10, 98] = [97, 10, 10, 98] := by
  refine ⟨?_, by decide, by decide, by decide, ?_⟩
  · intro env t md w hex hres
    rw [process_file] at hres
    cases hbody : process_file_body env t with
    | error e =>
      rw [hbody] at hres
      have := congrArg (fun x => x.1.success) hres
      simp at this
    | ok r =>
      rw [hbody] at hres
      rw [process_file_body] at hbody
      cases hcheck : (if t.skip then env.outExists else Except.ok false) with
      | error e =>
        rw [hcheck] at hbody
        simp at hbody
      | ok b =>
        rw [hcheck] at hbody
        cases b with
        | true =>
          simp at hbody
          rw [← hbody] at hres
          have := congrArg (fun x => x.1.msg) hres
          simp at this
        | false =>
          rw [hex] at hbody
          cases hw : env.writeErr with
          | some e =>
            rw [hw] at hbody
            simp at hbody
          | none =>
            rw [hw] at hbody
            simp at hbody
            rw [← hbody] at hres
            have := congrArg (fun x => x.2) hres
            simp at this
            rw [← this, safe_write_content_eq]
  · simp [clean_hyphenation_shadowed, subHyphen, collapseNewlines, List.dropWhile]

/-- C10 witness: a successful, non-skipped task whose extraction
contains a lone surrogate writes exactly the surrogate-free text. -/
theorem written_text_is_remove_surrogates_witness :
    (some [97, 98] : Option (List Nat)) = some (remove_surrogates [97, 0xD800, 98]) :=
  written_text_is_remove_surrogates.1 envExtractSurrogate taskNoSkip
    [97, 0xD800, 98] (some [97, 98]) rfl rfl
